import Mathlib

/-!
# Book Log: collection store and view query

A shallow embedding of `src/script.js` (the Book Log page script): the book
collection kept in the global `books`, the actions that change it (`addBook`,
`deleteBook`, `setRating`, `updateStatus`, the form submit handler) and the view
query `getVisibleBooks`.

Modelling conventions.

* A JavaScript string is a Lean `String`.
* The global array `books` is a `List Book`; every action takes the current
  list and returns an `Outcome`: the list afterwards and the calls it made to
  the collaborators (`saveBooks`, `render`, `showToast`, `confirm`,
  `celebrate`), in program order.
* What the script reads from its environment is passed as an argument: the
  value returned by `uid()`, by `Date.now()` and by `confirm(...)`, and the
  values of the form and toolbar controls.
* `String.prototype.toLowerCase` and `String.prototype.localeCompare` are host
  functions whose tables are not part of the script; they are the two fields
  of `Host`.
* Numbers stored in a record (`rating`, `createdAt`) are integers; a record
  loaded from storage may lack `rating`, hence `Option Int`.
-/

namespace BookLog

/-! ## Host functions -/

/-- The two string functions of the JavaScript host that the script calls and
whose definition depends on Unicode and locale tables. -/
structure Host where
  /-- Source `s.toLowerCase()` -/
  toLowerCase : String → String
  /-- Source `a.localeCompare(b)`: negative, zero or positive -/
  localeCompare : String → String → Int

/-- The comparator contract of ECMAScript for `localeCompare`: used as a sort
comparator it is consistent, that is `a.localeCompare(b) ≤ 0` is a total and
transitive relation on strings. -/
def Host.Consistent (h : Host) : Prop :=
  (∀ a b : String, h.localeCompare a b ≤ 0 ∨ h.localeCompare b a ≤ 0) ∧
  (∀ a b c : String, h.localeCompare a b ≤ 0 → h.localeCompare b c ≤ 0 →
    h.localeCompare a c ≤ 0)

/-- Lower-casing of one character of the Basic Latin block; every other
character is left as it is. -/
def lowerChar (c : Char) : Char :=
  if 65 ≤ c.toNat ∧ c.toNat ≤ 90 then Char.ofNat (c.toNat + 32) else c

/-- A reference host for evaluating the script on Basic Latin text:
`toLowerCase` maps `A`-`Z` to `a`-`z`, and `localeCompare` is the ordinal
(code point, lexicographic) comparison, one consistent comparator. -/
def refHost : Host where
  toLowerCase := fun s => ⟨s.data.map lowerChar⟩
  localeCompare := fun a b =>
    if a.data < b.data then -1 else if b.data < a.data then 1 else 0

/-- The code points removed by `String.prototype.trim`: ECMAScript `WhiteSpace`
and `LineTerminator`. -/
def isWhiteSpace (c : Char) : Bool :=
  let n := c.toNat
  n == 0x09 || n == 0x0A || n == 0x0B || n == 0x0C || n == 0x0D || n == 0x20 ||
  n == 0xA0 || n == 0x1680 || (0x2000 ≤ n && n ≤ 0x200A) || n == 0x2028 ||
  n == 0x2029 || n == 0x202F || n == 0x205F || n == 0x3000 || n == 0xFEFF

/-- Source `s.trim()`: white space removed from both ends. -/
def trim (s : String) : String :=
  ⟨((s.data.dropWhile isWhiteSpace).reverse.dropWhile isWhiteSpace).reverse⟩

/-- Source `s.includes(q)`: `q` occurs in `s` as a contiguous substring. -/
def includes (s q : String) : Bool :=
  decide (q.data <:+: s.data)

/-- Source `arr.sort(cmp)` for a comparator `cmp`. ECMAScript requires the sort to be
stable; for a consistent comparator the result is then determined, and it is
the one computed here by stable insertion: an element goes in front of the
first later element `b` with `cmp a b ≤ 0`. -/
def jsSort {α : Type} (cmp : α → α → Int) (arr : List α) : List α :=
  arr.insertionSort (fun a b => cmp a b ≤ 0)

/-! ## Data model -/

/-- A book record, as built by `addBook`. -/
structure Book where
  id : String
  title : String
  author : String
  genre : String
  status : String
  isbn : String
  /-- Source `none` when the property is absent -/
  rating : Option Int
  createdAt : Int
  deriving DecidableEq

/-- The argument of `addBook`: the raw values of the form fields. -/
structure Draft where
  title : String
  author : String
  genre : String
  status : String
  isbn : String
  deriving DecidableEq

/-- A call made to a collaborator. -/
inductive Effect where
  /-- Source `saveBooks()`, with the collection it serialises -/
  | saveBooks (snapshot : List Book)
  | render
  | showToast (msg : String)
  /-- Source `confirm(msg)` -/
  | confirm (msg : String)
  /-- Source `celebrate(title)` -/
  | celebrate (title : String)
  /-- Source `els.form.reset()` followed by `els.status.value = "to-read"` -/
  | formReset
  deriving DecidableEq

/-- The result of an action: the global `books` afterwards and the collaborator
calls made, in order. -/
structure Outcome where
  books : List Book
  effects : List Effect
  deriving DecidableEq

/-- Number of `saveBooks()` calls among the effects. -/
def saveCount : List Effect → Nat
  | [] => 0
  | Effect.saveBooks _ :: es => saveCount es + 1
  | _ :: es => saveCount es

/-- Number of `celebrate(...)` calls among the effects. -/
def celebrateCount : List Effect → Nat
  | [] => 0
  | Effect.celebrate _ :: es => celebrateCount es + 1
  | _ :: es => celebrateCount es

/-! ## Utilities -/

/-- Source `normalize(s)`: `(s || "").trim().toLowerCase()`; on a string `s || ""` is
`s` itself. -/
def normalize (h : Host) (s : String) : String :=
  h.toLowerCase (trim s)

/-- Source `b.rating || 0`. -/
def ratingOf (b : Book) : Int :=
  b.rating.getD 0

/-! ## View query -/

/-- The comparator passed to `arr.sort` in `getVisibleBooks`. -/
def compareBooks (h : Host) (sort : String) (a b : Book) : Int :=
  if sort = "created-asc" then a.createdAt - b.createdAt
  else if sort = "created-desc" then b.createdAt - a.createdAt
  else if sort = "title-asc" then h.localeCompare a.title b.title
  else if sort = "title-desc" then h.localeCompare b.title a.title
  else if sort = "author-asc" then h.localeCompare a.author b.author
  else if sort = "rating-desc" then ratingOf b - ratingOf a
  else 0

/-- The status stage: `if (filter !== "all") arr = arr.filter(...)`. -/
def statusStage (filter : String) (arr : List Book) : List Book :=
  if filter ≠ "all" then arr.filter (fun b => b.status = filter) else arr

/-- The search stage, for the raw search text: `q = normalize(search)` and
`if (q) arr = arr.filter(...)`. -/
def searchStage (h : Host) (search : String) (arr : List Book) : List Book :=
  let q := normalize h search
  if q ≠ "" then
    arr.filter (fun b => includes (normalize h b.title) q || includes (normalize h b.author) q)
  else arr

/-- The sort stage: `arr.sort(...)`. -/
def sortStage (h : Host) (sort : String) (arr : List Book) : List Book :=
  jsSort (compareBooks h sort) arr

/-- Source `getVisibleBooks()`, with `els.search.value`, `els.filterStatus.value`,
`els.sortBy.value` and the global `books` as arguments. -/
def getVisibleBooks (h : Host) (search filter sort : String) (books : List Book) :
    List Book :=
  let q := normalize h search
  let arr := books
  let arr := if filter ≠ "all" then arr.filter (fun b => b.status = filter) else arr
  let arr := if q ≠ "" then
      arr.filter (fun b => includes (normalize h b.title) q || includes (normalize h b.author) q)
    else arr
  jsSort (compareBooks h sort) arr

/-! ## Actions -/

/-- Source `addBook({ title, author, genre, status, isbn })`, with the values of
`uid()` and `Date.now()`. -/
def addBook (newId : String) (now : Int) (d : Draft) (books : List Book) : Outcome :=
  let book : Book :=
    { id := newId
      title := trim d.title
      author := trim d.author
      genre := d.genre
      status := d.status
      isbn := trim d.isbn
      rating := some 0
      createdAt := now }
  let books := book :: books
  { books := books
    effects := [Effect.saveBooks books, Effect.render, Effect.showToast "Added."] }

/-- The `submit` handler of the form: the guard on the four required fields,
then `addBook` and the reset of the form. -/
def formSubmit (newId : String) (now : Int) (d : Draft) (books : List Book) : Outcome :=
  if trim d.title = "" ∨ trim d.author = "" ∨ d.genre = "" ∨ d.status = "" then
    { books := books, effects := [] }
  else
    let o := addBook newId now d books
    { books := o.books, effects := o.effects ++ [Effect.formReset] }

/-- The text of the prompt of `deleteBook`: `book?.title || "this book"` between
quotes. -/
def deletePrompt (book : Option Book) : String :=
  let t := match book with
    | some b => if b.title = "" then "this book" else b.title
    | none => "this book"
  "Delete \"" ++ t ++ "\"?"

/-- Source `deleteBook(id)`, with the answer `ok` of `confirm`. -/
def deleteBook (ok : Bool) (id : String) (books : List Book) : Outcome :=
  let book := books.find? (fun b => b.id = id)
  let asked := [Effect.confirm (deletePrompt book)]
  if !ok then { books := books, effects := asked }
  else
    let books := books.filter (fun b => b.id ≠ id)
    { books := books
      effects := asked ++ [Effect.saveBooks books, Effect.render, Effect.showToast "Deleted."] }

/-- Assignment to a property of the object returned by `books.find(...)`: the
first record carrying `id` is replaced by its image under `f`. -/
def updateFirst (id : String) (f : Book → Book) : List Book → List Book
  | [] => []
  | b :: bs => if b.id = id then f b :: bs else b :: updateFirst id f bs

/-- Source `setRating(id, rating)`. -/
def setRating (id : String) (rating : Int) (books : List Book) : Outcome :=
  match books.find? (fun b => b.id = id) with
  | none => { books := books, effects := [] }
  | some _ =>
    let books := updateFirst id (fun b => { b with rating := some rating }) books
    { books := books
      effects := [Effect.saveBooks books, Effect.render,
        Effect.showToast ("Rated " ++ toString rating ++ "/5.")] }

/-- Source `updateStatus(id, status)`. -/
def updateStatus (id : String) (status : String) (books : List Book) : Outcome :=
  match books.find? (fun b => b.id = id) with
  | none => { books := books, effects := [] }
  | some book =>
    let wasCompleted := book.status = "completed"
    let books := updateFirst id (fun b => { b with status := status }) books
    let done := [Effect.saveBooks books, Effect.render]
    if ¬ wasCompleted ∧ status = "completed" then
      { books := books, effects := done ++ [Effect.celebrate book.title] }
    else
      { books := books, effects := done ++ [Effect.showToast "Status updated."] }

/-! ## Sample data -/

/-- The record that `addBook` builds from the third sample of the seed button,
for the id "b1" at time 1. -/
def dune : Book :=
  { id := "b1", title := "Dune", author := "Frank Herbert", genre := "Fantasy",
    status := "completed", isbn := "9780441013593", rating := some 0, createdAt := 1 }

/-- A rated record whose title and author contain no white space. -/
def habits : Book :=
  { id := "b0", title := "AtomicHabits", author := "Clear", genre := "Nonfiction",
    status := "reading", isbn := "9780735211292", rating := some 4, createdAt := 0 }

/-! ## Helper lemmas -/

theorem find?_updateFirst (id : String) (f : Book → Book) (hf : ∀ b, (f b).id = b.id) :
    ∀ books : List Book,
      (updateFirst id f books).find? (fun b => b.id = id) =
        (books.find? (fun b => b.id = id)).map f
  | [] => rfl
  | b :: bs => by
    by_cases hb : b.id = id
    · have hfb : (f b).id = id := by rw [hf, hb]
      simp [updateFirst, hb, hfb]
    · simp [updateFirst, hb, find?_updateFirst id f hf bs]

theorem find?_eq_none_of_absent (id : String) (books : List Book)
    (habs : ∀ b ∈ books, b.id ≠ id) : books.find? (fun b => b.id = id) = none := by
  rw [List.find?_eq_none]
  intro b hb
  simpa using habs b hb

theorem filter_ne_of_absent (id : String) (books : List Book)
    (habs : ∀ b ∈ books, b.id ≠ id) : books.filter (fun b => b.id ≠ id) = books := by
  rw [List.filter_eq_self]
  intro b hb
  simpa using habs b hb

/-- Under the reference host, `a.localeCompare(b) ≤ 0` says that `b` is not
below `a` in the ordinal order. -/
theorem refHost_localeCompare_le (a b : String) :
    refHost.localeCompare a b ≤ 0 ↔ ¬ b.data < a.data := by
  show (if a.data < b.data then (-1 : Int) else if b.data < a.data then 1 else 0) ≤ 0 ↔ _
  by_cases h1 : a.data < b.data
  · simp [h1, lt_asymm h1]
  · by_cases h2 : b.data < a.data <;> simp [h1, h2]

theorem refHost_consistent : refHost.Consistent := by
  constructor
  · intro a b
    rw [refHost_localeCompare_le, refHost_localeCompare_le]
    by_cases h1 : a.data < b.data
    · exact Or.inl (lt_asymm h1)
    · exact Or.inr h1
  · intro a b c
    rw [refHost_localeCompare_le, refHost_localeCompare_le, refHost_localeCompare_le]
    intro h1 h2
    exact not_lt.mpr (le_trans (not_lt.mp h1) (not_lt.mp h2))

/-! ### The sort -/

theorem mem_jsSort {α : Type} (cmp : α → α → Int) (l : List α) (x : α) :
    x ∈ jsSort cmp l ↔ x ∈ l :=
  (List.perm_insertionSort _ l).mem_iff

theorem orderedInsert_of_forall {α : Type} (r : α → α → Prop) [DecidableRel r] (a : α) :
    ∀ l : List α, (∀ c ∈ l, r a c) → l.orderedInsert r a = a :: l
  | [], _ => rfl
  | c :: l, hall => by
    have hc : r a c := hall c (List.mem_cons_self c l)
    simp [List.orderedInsert, hc]

/-- Inserting into a sorted list and then filtering is filtering and then
inserting, when the inserted element passes the filter. -/
theorem filter_orderedInsert {α : Type} (r : α → α → Prop) [DecidableRel r]
    (htr : ∀ a b c, r a b → r b c → r a c) (p : α → Bool) (a : α) :
    ∀ l : List α, l.Sorted r →
      (l.orderedInsert r a).filter p =
        if p a then (l.filter p).orderedInsert r a else l.filter p
  | [], _ => by
    by_cases hp : p a <;> simp [hp]
  | b :: l, hsorted => by
    have hbl : ∀ c ∈ l, r b c := List.rel_of_sorted_cons hsorted
    have ih := filter_orderedInsert r htr p a l hsorted.of_cons
    by_cases hab : r a b
    · by_cases hpa : p a
      · by_cases hpb : p b
        · simp [List.orderedInsert, hab, hpa, hpb]
        · have hall : ∀ c ∈ l.filter p, r a c := fun c hc =>
            htr a b c hab (hbl c (List.mem_filter.mp hc).1)
          simp [List.orderedInsert, hab, hpa, hpb, orderedInsert_of_forall r a _ hall]
      · simp [List.orderedInsert, hab, hpa]
    · by_cases hpa : p a
      · by_cases hpb : p b
        · simp [List.orderedInsert, hab, hpa, hpb, ih]
        · simp [List.orderedInsert, hab, hpa, hpb, ih]
      · by_cases hpb : p b
        · simp [List.orderedInsert, hab, hpa, hpb, ih]
        · simp [List.orderedInsert, hab, hpa, hpb, ih]

/-- For a consistent comparator, sorting commutes with filtering. -/
theorem filter_jsSort {α : Type} (cmp : α → α → Int)
    (htot : ∀ a b, cmp a b ≤ 0 ∨ cmp b a ≤ 0)
    (htr : ∀ a b c, cmp a b ≤ 0 → cmp b c ≤ 0 → cmp a c ≤ 0) (p : α → Bool) :
    ∀ l : List α, (jsSort cmp l).filter p = jsSort cmp (l.filter p)
  | [] => rfl
  | a :: l => by
    haveI : IsTotal α (fun a b => cmp a b ≤ 0) := ⟨htot⟩
    haveI : IsTrans α (fun a b => cmp a b ≤ 0) := ⟨htr⟩
    have hs : (jsSort cmp l).Sorted (fun a b => cmp a b ≤ 0) :=
      List.sorted_insertionSort _ l
    have ih := filter_jsSort cmp htot htr p l
    have hins := filter_orderedInsert (fun a b => cmp a b ≤ 0) htr p a (jsSort cmp l) hs
    unfold jsSort at hins ih ⊢
    by_cases hpa : p a
    · simp only [List.insertionSort, List.filter_cons, hpa, if_true] at hins ⊢
      rw [hins, ih]
    · simp only [List.insertionSort, List.filter_cons, hpa] at hins ⊢
      simpa [ih] using hins

/-- Inserting an element puts it in front of the elements of its own key: it
only passes elements that compare strictly before it. -/
theorem filter_key_orderedInsert {α : Type} (cmp : α → α → Int) (key : α → Int)
    (hkey : ∀ a b, cmp a b ≤ 0 ↔ key b ≤ key a) (k : Int) (a : α) :
    ∀ l : List α,
      (l.orderedInsert (fun a b => cmp a b ≤ 0) a).filter (fun b => key b = k) =
        if key a = k then a :: l.filter (fun b => key b = k)
        else l.filter (fun b => key b = k)
  | [] => by
    by_cases hk : key a = k <;> simp [hk]
  | b :: l => by
    have ih := filter_key_orderedInsert cmp key hkey k a l
    by_cases hab : cmp a b ≤ 0
    · by_cases hk : key a = k <;> simp [List.orderedInsert, hab, hk]
    · have hlt : key a < key b := by
        have := (hkey a b).not.mp hab
        omega
      by_cases hkb : key b = k
      · have hka : ¬ key a = k := by omega
        simp only [List.orderedInsert, if_neg hab, List.filter_cons, hkb, decide_True,
          if_true, ih, if_neg hka]
      · simp only [List.orderedInsert, if_neg hab, List.filter_cons, hkb, decide_False, ih]
        simp

/-- Stability of the sort: the records of one key come out in input order. -/
theorem filter_key_jsSort {α : Type} (cmp : α → α → Int) (key : α → Int)
    (hkey : ∀ a b, cmp a b ≤ 0 ↔ key b ≤ key a) (k : Int) :
    ∀ l : List α,
      (jsSort cmp l).filter (fun b => key b = k) = l.filter (fun b => key b = k)
  | [] => rfl
  | a :: l => by
    have ih := filter_key_jsSort cmp key hkey k l
    have hins := filter_key_orderedInsert cmp key hkey k a (jsSort cmp l)
    unfold jsSort at hins ih ⊢
    simp only [List.insertionSort]
    rw [hins, ih]
    by_cases hk : key a = k <;> simp [hk]

/-- The sort orders by descending key when the comparator is the difference of
the keys. -/
theorem sorted_key_jsSort {α : Type} (cmp : α → α → Int) (key : α → Int)
    (hkey : ∀ a b, cmp a b ≤ 0 ↔ key b ≤ key a) (l : List α) :
    (jsSort cmp l).Pairwise (fun a b => key b ≤ key a) := by
  haveI : IsTotal α (fun a b => cmp a b ≤ 0) :=
    ⟨fun a b => by rw [hkey a b, hkey b a]; exact le_total _ _⟩
  haveI : IsTrans α (fun a b => cmp a b ≤ 0) :=
    ⟨fun a b c => by rw [hkey a b, hkey b c, hkey a c]; exact fun h1 h2 => le_trans h2 h1⟩
  have hs : (jsSort cmp l).Sorted (fun a b => cmp a b ≤ 0) := List.sorted_insertionSort _ l
  exact List.Pairwise.imp (fun {a b} hab => (hkey a b).mp hab) hs

/-! ### The comparators and the stages -/

theorem compareBooks_rating_desc (h : Host) (a b : Book) :
    compareBooks h "rating-desc" a b = ratingOf b - ratingOf a := by
  simp [compareBooks]

theorem compareBooks_total (h : Host) (hc : h.Consistent) (sort : String) (a b : Book) :
    compareBooks h sort a b ≤ 0 ∨ compareBooks h sort b a ≤ 0 := by
  unfold compareBooks
  split_ifs
  · omega
  · omega
  · exact hc.1 _ _
  · exact hc.1 _ _
  · exact hc.1 _ _
  · omega
  · simp

theorem compareBooks_trans (h : Host) (hc : h.Consistent) (sort : String) (a b c : Book) :
    compareBooks h sort a b ≤ 0 → compareBooks h sort b c ≤ 0 →
      compareBooks h sort a c ≤ 0 := by
  unfold compareBooks
  split_ifs
  · omega
  · omega
  · exact hc.2 _ _ _
  · exact fun h1 h2 => hc.2 _ _ _ h2 h1
  · exact hc.2 _ _ _
  · omega
  · simp

theorem getVisibleBooks_eq_stages (h : Host) (search filter sort : String)
    (books : List Book) :
    getVisibleBooks h search filter sort books =
      sortStage h sort (searchStage h search (statusStage filter books)) :=
  rfl

theorem statusStage_eq_filter (filter : String) :
    ∃ p : Book → Bool, ∀ arr, statusStage filter arr = arr.filter p := by
  by_cases hf : filter = "all"
  · exact ⟨fun _ => true, fun arr => by simp [statusStage, hf]⟩
  · exact ⟨fun b => b.status = filter, fun arr => by simp [statusStage, hf]⟩

theorem searchStage_eq_filter (h : Host) (search : String) :
    ∃ p : Book → Bool, ∀ arr, searchStage h search arr = arr.filter p := by
  by_cases hq : normalize h search = ""
  · exact ⟨fun _ => true, fun arr => by simp [searchStage, hq]⟩
  · exact ⟨fun b => includes (normalize h b.title) (normalize h search) ||
        includes (normalize h b.author) (normalize h search),
      fun arr => by simp [searchStage, hq]⟩

theorem survivors_sublist (h : Host) (search filter : String) (books : List Book) :
    (searchStage h search (statusStage filter books)).Sublist books := by
  obtain ⟨p, hp⟩ := statusStage_eq_filter filter
  obtain ⟨q, hq⟩ := searchStage_eq_filter h search
  rw [hq, hp]
  exact (List.filter_sublist _).trans (List.filter_sublist _)

/-! ## Collection store -/

/-- The function `addBook` has no guard of its own: whatever the draft, it puts
a record in front of the collection. The guard is in the submit handler. -/
theorem addBook_length (newId : String) (now : Int) (d : Draft) (books : List Book) :
    (addBook newId now d books).books.length = books.length + 1 := by
  simp [addBook]

/-- C1: for a draft whose title and author are non-blank after trimming and
whose genre and status are non-empty, the submit handler reaches `addBook`, and
the collection afterwards is the new record (trimmed title and author, the
given genre and status, rating 0) in front of the old collection, so its size
is the old size plus one. -/
theorem formSubmit_creates (newId : String) (now : Int) (d : Draft) (books : List Book)
    (ht : trim d.title ≠ "") (ha : trim d.author ≠ "") (hg : d.genre ≠ "")
    (hs : d.status ≠ "") :
    (formSubmit newId now d books).books = (addBook newId now d books).books ∧
    (formSubmit newId now d books).books =
      { id := newId, title := trim d.title, author := trim d.author, genre := d.genre,
        status := d.status, isbn := trim d.isbn, rating := some 0, createdAt := now }
        :: books ∧
    (formSubmit newId now d books).books.length = books.length + 1 := by
  simp [formSubmit, addBook, ht, ha, hg, hs]

/-- Witness of C1: the first sample of the seed button, typed with spaces
around the title, submitted to a collection of one record. -/
theorem formSubmit_creates_witness :
    (formSubmit "b2" 2 ⟨" The Alchemist ", "Paulo Coelho", "Fiction", "to-read", ""⟩
        [dune]).books =
      [{ id := "b2", title := "The Alchemist", author := "Paulo Coelho", genre := "Fiction",
         status := "to-read", isbn := "", rating := some 0, createdAt := 2 }, dune] :=
  (formSubmit_creates "b2" 2 ⟨" The Alchemist ", "Paulo Coelho", "Fiction", "to-read", ""⟩
    [dune] (by decide) (by decide) (by decide) (by decide)).2.1.trans (by decide)

/-- C2: for a draft whose title is blank after trimming, the create operation
(the submit handler guarding `addBook`) leaves the collection as it was, in
particular of the same size, and calls no collaborator. -/
theorem formSubmit_blank_title (newId : String) (now : Int) (d : Draft) (books : List Book)
    (ht : trim d.title = "") :
    (formSubmit newId now d books).books.length = books.length ∧
    (formSubmit newId now d books).books = books ∧
    (formSubmit newId now d books).effects = [] := by
  simp [formSubmit, ht]

/-- Witness of C2: a title made of a space and a tab. -/
theorem formSubmit_blank_title_witness :
    trim " \t" = "" ∧
    (formSubmit "b2" 2 ⟨" \t", "Paulo Coelho", "Fiction", "to-read", ""⟩ [dune]).books
      = [dune] :=
  ⟨by decide,
   (formSubmit_blank_title "b2" 2 ⟨" \t", "Paulo Coelho", "Fiction", "to-read", ""⟩ [dune]
      (by decide)).2.1⟩

/-- Counterexample to C3: `setRating` with 6 and with -1 on a record rated 0 is
not rejected; the record's rating becomes 6, respectively -1. -/
theorem setRating_out_of_range_counterexample :
    [dune].map Book.rating = [some 0] ∧
    (setRating "b1" 6 [dune]).books.map Book.rating = [some 6] ∧
    (setRating "b1" (-1) [dune]).books.map Book.rating = [some (-1)] := by
  decide

/-- C3, amended: for an id present in the collection and every value `v`,
inside `[0,5]` or not, `setRating(id, v)` is accepted: the record found under
`id` carries rating `v` afterwards, and the collection is saved once. -/
theorem setRating_sets (id : String) (v : Int) (books : List Book)
    (hpres : ∃ b ∈ books, b.id = id) :
    ∃ b, books.find? (fun b => b.id = id) = some b ∧
      (setRating id v books).books.find? (fun b => b.id = id) =
        some { b with rating := some v } ∧
      saveCount (setRating id v books).effects = 1 := by
  obtain ⟨b0, hb0, hid⟩ := hpres
  cases hfind : books.find? (fun b => b.id = id) with
  | none =>
    rw [List.find?_eq_none] at hfind
    exact absurd (by simpa using hid) (hfind b0 hb0)
  | some b =>
    refine ⟨b, rfl, ?_, ?_⟩
    · simp only [setRating, hfind]
      have hupd := find?_updateFirst id (fun b : Book => { b with rating := some v })
        (fun _ => rfl) books
      rw [hupd, hfind]
      rfl
    · simp [setRating, hfind, saveCount]

/-- Witness of C3, amended: the value 6 on the sample record. -/
theorem setRating_sets_witness :
    [dune].find? (fun b => b.id = "b1") = some dune ∧
    (setRating "b1" 6 [dune]).books.find? (fun b => b.id = "b1") =
      some { dune with rating := some 6 } :=
  ⟨by decide,
   match setRating_sets "b1" 6 [dune] ⟨dune, by simp, by decide⟩ with
   | ⟨_, hb, hr, _⟩ => by
     have hd : [dune].find? (fun b => b.id = "b1") = some dune := by decide
     rw [hd] at hb
     cases hb
     exact hr⟩

/-- C4: `updateStatus(id, s)` calls `celebrate` exactly once when the record
found under `id` had a status other than "completed" and `s` is "completed",
and not at all otherwise: not from "completed" to "completed", not for another
target status, not for an absent id. -/
theorem updateStatus_celebrates (id s : String) (books : List Book) :
    celebrateCount (updateStatus id s books).effects =
      match books.find? (fun b => b.id = id) with
      | none => 0
      | some b => if b.status ≠ "completed" ∧ s = "completed" then 1 else 0 := by
  cases hfind : books.find? (fun b => b.id = id) with
  | none => simp [updateStatus, hfind, celebrateCount]
  | some b =>
    by_cases hc : b.status ≠ "completed" ∧ s = "completed"
    · have hc2 : ¬ b.status = "completed" ∧ s = "completed" := hc
      simp [updateStatus, hfind, hc2, celebrateCount]
    · have hc2 : ¬ (¬ b.status = "completed" ∧ s = "completed") := hc
      simp only [updateStatus, hfind, if_neg hc2, if_neg hc]
      simp [celebrateCount]

/-- C5: `deleteBook` for an id that no record carries, whether the prompt is
accepted or declined, leaves the collection equal to what it was. -/
theorem deleteBook_absent (ok : Bool) (id : String) (books : List Book)
    (habs : ∀ b ∈ books, b.id ≠ id) :
    (deleteBook ok id books).books = books := by
  cases ok
  · simp [deleteBook]
  · simp only [deleteBook, Bool.not_true, Bool.false_eq_true, if_false]
    exact filter_ne_of_absent id books habs

/-- Witness of C5: an unknown id on the sample record, prompt accepted. -/
theorem deleteBook_absent_witness :
    [dune].find? (fun b => b.id = "zz") = none ∧
    (deleteBook true "zz" [dune]).books = [dune] :=
  ⟨by decide, deleteBook_absent true "zz" [dune] (by decide)⟩

/-- Counterexample to C6: `deleteBook` for an id that no record carries, with
the prompt accepted, calls `saveBooks` once. -/
theorem deleteBook_absent_saves_counterexample :
    [dune].find? (fun b => b.id = "zz") = none ∧
    (deleteBook true "zz" [dune]).effects =
      [Effect.confirm "Delete \"this book\"?", Effect.saveBooks [dune], Effect.render,
       Effect.showToast "Deleted."] ∧
    saveCount (deleteBook true "zz" [dune]).effects = 1 := by
  decide

/-- C6, amended: for an id that no record carries, `setRating` and
`updateStatus` call no collaborator, so they do not save; `deleteBook` does
not save when the prompt is declined, and when it is accepted it calls
`saveBooks` once, with the unchanged collection. -/
theorem absent_id_persistence (id s : String) (v : Int) (books : List Book)
    (habs : ∀ b ∈ books, b.id ≠ id) :
    (setRating id v books).effects = [] ∧
    (updateStatus id s books).effects = [] ∧
    saveCount (deleteBook false id books).effects = 0 ∧
    (deleteBook true id books).effects =
      [Effect.confirm "Delete \"this book\"?", Effect.saveBooks books, Effect.render,
       Effect.showToast "Deleted."] ∧
    saveCount (deleteBook true id books).effects = 1 := by
  have hfind := find?_eq_none_of_absent id books habs
  have hfil := filter_ne_of_absent id books habs
  refine ⟨?_, ?_, ?_, ?_, ?_⟩
  · simp [setRating, hfind]
  · simp [updateStatus, hfind]
  · simp [deleteBook, saveCount]
  · simp only [deleteBook, hfind, hfil, Bool.not_true, Bool.false_eq_true, if_false]
    rfl
  · simp only [deleteBook, hfil, Bool.not_true, Bool.false_eq_true, if_false]
    rfl

/-- Witness of C6, amended: an unknown id on the sample record. -/
theorem absent_id_persistence_witness :
    (setRating "zz" 3 [dune]).effects = [] ∧
    (updateStatus "zz" "reading" [dune]).effects = [] ∧
    saveCount (deleteBook false "zz" [dune]).effects = 0 :=
  have h := absent_id_persistence "zz" "reading" 3 [dune] (by decide)
  ⟨h.1, h.2.1, h.2.2.1⟩

/-! ## View query -/

/-- C7: for a status filter other than "all", every record returned by
`getVisibleBooks` has that status, whatever the search text and the sort
key. -/
theorem getVisibleBooks_status (h : Host) (search filter sort : String) (books : List Book)
    (hf : filter ≠ "all") :
    ∀ b ∈ getVisibleBooks h search filter sort books, b.status = filter := by
  intro b hb
  rw [getVisibleBooks_eq_stages, sortStage, mem_jsSort] at hb
  obtain ⟨q, hq⟩ := searchStage_eq_filter h search
  rw [hq] at hb
  have hb2 := (List.mem_filter.mp hb).1
  simp only [statusStage, hf, ne_eq, not_false_eq_true, if_true] at hb2
  simpa using (List.mem_filter.mp hb2).2

/-- Witness of C7: the filter "completed" over the two samples. -/
theorem getVisibleBooks_status_witness :
    getVisibleBooks refHost "" "completed" "title-asc" [habits, dune] = [dune] ∧
    dune.status = "completed" :=
  ⟨by decide,
   getVisibleBooks_status refHost "" "completed" "title-asc" [habits, dune] (by decide)
     dune (by decide)⟩

/-- Counterexample to C8: the search text " dune " is not empty, the query
returns the record titled "Dune", and neither its title nor its author contains
" dune ", even without regard to case; and for the search text " " the query
returns the record by "Clear", whose title and author contain no space. -/
theorem search_text_counterexample :
    getVisibleBooks refHost " dune " "all" "created-asc" [dune] = [dune] ∧
    includes (refHost.toLowerCase dune.title) (refHost.toLowerCase " dune ") = false ∧
    includes (refHost.toLowerCase dune.author) (refHost.toLowerCase " dune ") = false ∧
    getVisibleBooks refHost " " "all" "created-asc" [habits] = [habits] ∧
    includes (refHost.toLowerCase habits.title) (refHost.toLowerCase " ") = false ∧
    includes (refHost.toLowerCase habits.author) (refHost.toLowerCase " ") = false := by
  decide

/-- C8, amended: when the normalised search text `q` (trimmed, then
lower-cased) is not empty, every record returned by `getVisibleBooks` has a
normalised title or a normalised author that contains `q` as a substring. -/
theorem getVisibleBooks_search (h : Host) (search filter sort : String) (books : List Book)
    (hq : normalize h search ≠ "") :
    ∀ b ∈ getVisibleBooks h search filter sort books,
      includes (normalize h b.title) (normalize h search) = true ∨
      includes (normalize h b.author) (normalize h search) = true := by
  intro b hb
  rw [getVisibleBooks_eq_stages, sortStage, mem_jsSort] at hb
  simp only [searchStage, hq, ne_eq, not_false_eq_true, if_true] at hb
  simpa using (List.mem_filter.mp hb).2

/-- Witness of C8, amended: the search text " HABITS" over the two samples. -/
theorem getVisibleBooks_search_witness :
    normalize refHost " HABITS" = "habits" ∧
    getVisibleBooks refHost " HABITS" "all" "title-asc" [habits, dune] = [habits] ∧
    (includes (normalize refHost habits.title) (normalize refHost " HABITS") = true ∨
      includes (normalize refHost habits.author) (normalize refHost " HABITS") = true) :=
  ⟨by decide, by decide,
   getVisibleBooks_search refHost " HABITS" "all" "title-asc" [habits, dune] (by decide)
     habits (by decide)⟩

/-- C9: with the sort key "rating-desc", `getVisibleBooks` returns the records
that survive the two filters (a subsequence of the collection), rearranged in
non-increasing order of rating, an absent rating counting as 0; and for every
rating value the records of that rating come out in the order they have in the
collection. -/
theorem getVisibleBooks_rating_desc (h : Host) (search filter : String) (books : List Book) :
    (searchStage h search (statusStage filter books)).Sublist books ∧
    (getVisibleBooks h search filter "rating-desc" books).Perm
      (searchStage h search (statusStage filter books)) ∧
    (getVisibleBooks h search filter "rating-desc" books).Pairwise
      (fun a b => ratingOf b ≤ ratingOf a) ∧
    ∀ k : Int,
      (getVisibleBooks h search filter "rating-desc" books).filter
          (fun b => ratingOf b = k) =
        (searchStage h search (statusStage filter books)).filter
          (fun b => ratingOf b = k) := by
  have hkey : ∀ a b : Book,
      compareBooks h "rating-desc" a b ≤ 0 ↔ ratingOf b ≤ ratingOf a := by
    intro a b
    rw [compareBooks_rating_desc]
    omega
  refine ⟨survivors_sublist h search filter books, ?_, ?_, ?_⟩
  · rw [getVisibleBooks_eq_stages]
    exact List.perm_insertionSort _ _
  · rw [getVisibleBooks_eq_stages]
    exact sorted_key_jsSort _ ratingOf hkey _
  · intro k
    rw [getVisibleBooks_eq_stages]
    exact filter_key_jsSort _ ratingOf hkey k _

/-- C10: when `localeCompare` is a consistent comparator, the three stages of
the view query can be applied in any of their six orders: each order yields the
sequence returned by `getVisibleBooks`. -/
theorem stage_order_irrelevant (h : Host) (hc : h.Consistent) (search filter sort : String)
    (books : List Book) :
    sortStage h sort (searchStage h search (statusStage filter books)) =
      getVisibleBooks h search filter sort books ∧
    sortStage h sort (statusStage filter (searchStage h search books)) =
      getVisibleBooks h search filter sort books ∧
    searchStage h search (sortStage h sort (statusStage filter books)) =
      getVisibleBooks h search filter sort books ∧
    statusStage filter (sortStage h sort (searchStage h search books)) =
      getVisibleBooks h search filter sort books ∧
    searchStage h search (statusStage filter (sortStage h sort books)) =
      getVisibleBooks h search filter sort books ∧
    statusStage filter (searchStage h search (sortStage h sort books)) =
      getVisibleBooks h search filter sort books := by
  obtain ⟨p, hp⟩ := statusStage_eq_filter filter
  obtain ⟨q, hq⟩ := searchStage_eq_filter h search
  have hsort : ∀ (r : Book → Bool) (l : List Book),
      (sortStage h sort l).filter r = sortStage h sort (l.filter r) :=
    fun r l => filter_jsSort (compareBooks h sort) (compareBooks_total h hc sort)
      (compareBooks_trans h hc sort) r l
  have hcomm : ∀ l : List Book, (l.filter q).filter p = (l.filter p).filter q :=
    fun l => List.filter_comm _ _ l
  rw [getVisibleBooks_eq_stages]
  simp only [hp, hq, hsort, hcomm, and_self]

/-- Witness of C10: the reference host is consistent, and the last of the six
orders (sort first, then search, then status) on the two samples. -/
theorem stage_order_irrelevant_witness :
    refHost.Consistent ∧
    statusStage "reading" (searchStage refHost "a" (sortStage refHost "title-asc"
        [dune, habits])) =
      getVisibleBooks refHost "a" "reading" "title-asc" [dune, habits] :=
  ⟨refHost_consistent,
   (stage_order_irrelevant refHost refHost_consistent "a" "reading" "title-asc"
      [dune, habits]).2.2.2.2.2⟩

end BookLog
